import Mathlib

/-!
Verification of the Networking repository's monitoring and actuation engine
against its natural-language specification.

The definitions below are a shallow embedding of the repository's code:
frontend classification and aggregation logic (dashboard.tsx, NTTNChart.tsx,
ResellerLeaderboard.tsx, api.ts), the database schema semantics
(db_migration_router_nttn.sql), configuration constants (config.yaml), and —
where the backend engine's code is not part of the source tree — models built
from the specification's own words, each marked `Modelled from the spec:` in
its doc comment.

Mbps values are modelled as rationals; timestamps as naturals (seconds).
-/

/-- Alert classification levels used by the per-tenant dashboard badge. -/
inductive AlertLevel
  | critical
  | warning
  | noAlert
deriving DecidableEq, Repr

/-- Reseller (tenant) record as declared in src/frontend/utils/api.ts:
id, name, plan_mbps (subscribed capacity), threshold (alert fraction). -/
structure Reseller where
  id : String
  name : String
  plan_mbps : ℚ
  threshold : ℚ
deriving DecidableEq, Repr

/-- Usage sample point as declared in src/frontend/utils/api.ts (UsagePoint):
timestamp, rx rate and tx rate in Mbps. -/
structure UsagePoint where
  ts : ℕ
  rx_mbps : ℚ
  tx_mbps : ℚ
deriving DecidableEq, Repr

/-- From src/frontend/pages/dashboard.tsx loadData: the current usage of a
reseller is rx_mbps + tx_mbps of the last element of the fetched usage series,
0 when the series is empty, and 0 when the per-reseller fetch failed
(the catch branch). `none` models a failed fetch. -/
def currentUsageOf : Option (List UsagePoint) → ℚ
  | none => 0
  | some pts =>
    match pts.getLast? with
    | none => 0
    | some p => p.rx_mbps + p.tx_mbps

/-- Utilization percentage as computed throughout the frontend:
usage divided by capacity, times 100. -/
def utilizationPercent (usage plan : ℚ) : ℚ := usage / plan * 100

/-- From src/frontend/pages/dashboard.tsx getUtilizationBadge: red (critical)
when utilization ≥ 100, yellow (warning) when utilization ≥ 80 — the 80 is a
literal in the code — and green (no alert) otherwise. -/
def badgeLevel (r : Reseller) (usage : ℚ) : AlertLevel :=
  let u := utilizationPercent usage r.plan_mbps
  if 100 ≤ u then .critical
  else if 80 ≤ u then .warning
  else .noAlert

/-- Per the specification's per-tenant mode sentence: CRITICAL when
utilization ≥ 100%, WARNING when utilization ≥ the tenant's configured alert
threshold fraction (as a percentage), no alert otherwise. Written from the
spec's words for comparison with `badgeLevel`. -/
def specTenantLevel (r : Reseller) (usage : ℚ) : AlertLevel :=
  let u := utilizationPercent usage r.plan_mbps
  if 100 ≤ u then .critical
  else if r.threshold * 100 ≤ u then .warning
  else .noAlert

/-- C1: the claim as stated is false on the code. A tenant with configured
alert threshold fraction 0.9 and utilization 85% is classified WARNING by the
dashboard code (which compares against a hard-coded 80), while the claimed
classification against the configured threshold yields no alert. -/
theorem C1_counterexample :
    badgeLevel ⟨"t1", "T", 100, 9 / 10⟩ 85 = .warning ∧
    specTenantLevel ⟨"t1", "T", 100, 9 / 10⟩ 85 = .noAlert := by
  constructor <;> norm_num [badgeLevel, specTenantLevel, utilizationPercent]

/-- C1 (amended): per-tenant classification computes utilization as the
current usage (rx + tx of the most recent sample, 0 when absent or failed)
divided by the subscribed capacity, and classifies CRITICAL at ≥ 100% and
WARNING at ≥ a fixed 80% — i.e. the spec classification with the threshold
fraction forced to 0.8 — regardless of the tenant's configured threshold. -/
theorem C1_theorem (r : Reseller) (fetch : Option (List UsagePoint)) :
    badgeLevel r (currentUsageOf fetch) =
      specTenantLevel { r with threshold := 8 / 10 } (currentUsageOf fetch) := by
  simp only [badgeLevel, specTenantLevel]
  norm_num

/-- From src/db_migration_router_nttn.sql, table nttn_usage: the stored column
utilization_percent is GENERATED ALWAYS AS (total_mbps / 1000 * 100), with the
divisor 1000 a literal in the DDL. -/
def nttnUsageUtilizationPercent (total_mbps : ℚ) : ℚ := total_mbps / 1000 * 100

/-- Per the specification's aggregate mode sentence: utilization is the summed
usage divided by the aggregate link's configured total capacity, times 100.
Written from the spec's words for comparison with the code formulas. -/
def specAggUtilizationPercent (total capacity : ℚ) : ℚ := total / capacity * 100

/-- From src/frontend/components/NTTNChart.tsx: totalCapacity is the sum of
plan_mbps over the reseller list passed to the chart. -/
def chartTotalCapacity (rs : List Reseller) : ℚ := (rs.map (fun r => r.plan_mbps)).sum

/-- From src/frontend/components/NTTNChart.tsx fetchAggregatedData: the per-time
aggregate total is the sum of rx+tx values of the grouped points. -/
def aggregateTotal (points : List ℚ) : ℚ := points.sum

/-- From src/frontend/components/NTTNChart.tsx: displayed utilization is the
aggregate total divided by totalCapacity (sum of reseller plans), times 100. -/
def chartUtilizationPercent (total : ℚ) (rs : List Reseller) : ℚ :=
  total / chartTotalCapacity rs * 100

/-- C3: the claim as stated is false on the code. With a configured aggregate
capacity of 2000 Mbps and a summed usage of 1000 Mbps, the spec formula gives
50%, but the stored nttn_usage.utilization_percent divides by a hard-coded
1000 and records 100%. -/
theorem C3_counterexample :
    nttnUsageUtilizationPercent 1000 ≠ specAggUtilizationPercent 1000 2000 := by
  norm_num [nttnUsageUtilizationPercent, specAggUtilizationPercent]

/-- C3 (amended): the stored utilization_percent always computes against a
fixed 1000 Mbps — it equals the spec formula exactly at capacity 1000 — and
the chart's displayed utilization computes against the sum of the resellers'
plan capacities, not the aggregate link's configured total capacity; for a
nonzero summed usage the stored value disagrees with the spec formula at every
configured capacity other than 1000. -/
theorem C3_theorem (total : ℚ) (rs : List Reseller) (cap : ℚ) :
    nttnUsageUtilizationPercent total = specAggUtilizationPercent total 1000 ∧
    chartUtilizationPercent total rs =
      specAggUtilizationPercent total (chartTotalCapacity rs) ∧
    (cap ≠ 1000 → cap ≠ 0 →
      nttnUsageUtilizationPercent 1000 ≠ specAggUtilizationPercent 1000 cap) := by
  refine ⟨rfl, rfl, fun hc hc0 h => hc ?_⟩
  have h' : (100 : ℚ) = 1000 / cap * 100 := by
    simpa [nttnUsageUtilizationPercent, specAggUtilizationPercent] using h
  have : (1000 : ℚ) / cap = 1 := by linarith
  field_simp at this
  linarith

/-- Chart alert levels as used in src/frontend/components/NTTNChart.tsx. -/
inductive ChartLevel
  | normal
  | warning
  | critical
deriving DecidableEq, Repr

/-- From src/frontend/components/NTTNChart.tsx fetchAggregatedData: alert
level is critical when utilization ≥ 100, warning when utilization ≥ 90,
normal otherwise. -/
def chartAlertLevel (total capacity : ℚ) : ChartLevel :=
  let u := total / capacity * 100
  if 100 ≤ u then .critical
  else if 90 ≤ u then .warning
  else .normal

/-- From the JSX of src/frontend/components/NTTNChart.tsx: a critical banner
is rendered exactly when the current alert level is critical, and a warning
banner exactly when it is warning. -/
def bannersShown (lvl : ChartLevel) : List String :=
  (if lvl = .critical then ["critical"] else []) ++
  (if lvl = .warning then ["warning"] else [])

/-- Five 200 Mbps sub-circuits forming the 1000 Mbps aggregate of
src/config.yaml nttn.links (vlans 10–50, capacity_mbps 200 each). -/
def fiveSubCircuits : List Reseller :=
  [⟨"v10", "VLAN 10", 200, 8 / 10⟩, ⟨"v20", "VLAN 20", 200, 8 / 10⟩,
   ⟨"v30", "VLAN 30", 200, 8 / 10⟩, ⟨"v40", "VLAN 40", 200, 8 / 10⟩,
   ⟨"v50", "VLAN 50", 200, 8 / 10⟩]

/-- C4: with five 200 Mbps sub-interfaces the aggregate capacity is 1000 Mbps;
samples summing to 750 Mbps give 75% utilization, level normal, and no alert
banner; raising the sum to 900 Mbps gives exactly 90% utilization, level
warning, and exactly one warning banner. -/
theorem C4_theorem :
    chartTotalCapacity fiveSubCircuits = 1000 ∧
    aggregateTotal [150, 150, 150, 150, 150] = 750 ∧
    chartUtilizationPercent 750 fiveSubCircuits = 75 ∧
    chartAlertLevel 750 (chartTotalCapacity fiveSubCircuits) = .normal ∧
    bannersShown (chartAlertLevel 750 (chartTotalCapacity fiveSubCircuits)) = [] ∧
    aggregateTotal [300, 150, 150, 150, 150] = 900 ∧
    chartUtilizationPercent 900 fiveSubCircuits = 90 ∧
    chartAlertLevel 900 (chartTotalCapacity fiveSubCircuits) = .warning ∧
    bannersShown (chartAlertLevel 900 (chartTotalCapacity fiveSubCircuits)) =
      ["warning"] := by
  norm_num [chartTotalCapacity, fiveSubCircuits, aggregateTotal,
    chartUtilizationPercent, chartAlertLevel, bannersShown]
  exact ⟨⟨by decide, by decide⟩, by decide⟩

/-- Alert record key data as persisted in nttn_alerts
(src/db_migration_router_nttn.sql): link id, alert level, fired-at time. -/
structure AlertRec where
  link : String
  level : String
  firedAt : ℕ
deriving DecidableEq, Repr

/-- From src/config.yaml nttn.alert_cooldown: 300 seconds between alerts. -/
def configAlertCooldown : ℕ := 300

/-- Modelled from the spec: the Threshold Evaluator's dedupe query — before
creating an alert it looks for an existing unresolved alert of the same
(link, level) fired within the cooldown window. The evaluator source is not
part of the source tree; this follows §4.3 of the spec. -/
def recentSameKey (cooldown now : ℕ) (link level : String)
    (log : List AlertRec) : Bool :=
  log.any fun a => a.link == link && a.level == level &&
    decide (now < a.firedAt + cooldown)

/-- Modelled from the spec: fire a candidate alert at time `now`, suppressing
it when an alert of the same (link, level) exists within the cooldown window;
otherwise append a new record to the log. -/
def fireAlert (cooldown : ℕ) (log : List AlertRec) (link level : String)
    (now : ℕ) : List AlertRec :=
  if recentSameKey cooldown now link level log then log
  else ⟨link, level, now⟩ :: log

/-- Modelled from the spec: run the evaluator over a list of candidate alerts
(link, level, time), threading the append-only alert log. -/
def runEvaluator (cooldown : ℕ) :
    List (String × String × ℕ) → List AlertRec → List AlertRec
  | [], log => log
  | t :: ts, log => runEvaluator cooldown ts (fireAlert cooldown log t.1 t.2.1 t.2.2)

/-- The anti-storm invariant: any two records of the same (link, level) in the
log (kept newest first) are at least a cooldown apart. -/
def cooldownOk (cooldown : ℕ) (log : List AlertRec) : Prop :=
  List.Pairwise
    (fun a b => a.link = b.link → a.level = b.level → b.firedAt + cooldown ≤ a.firedAt)
    log

theorem fireAlert_cooldownOk (cooldown : ℕ) (log : List AlertRec)
    (link level : String) (now : ℕ) (h : cooldownOk cooldown log) :
    cooldownOk cooldown (fireAlert cooldown log link level now) := by
  unfold fireAlert
  split
  · exact h
  · rename_i hnot
    refine List.Pairwise.cons ?_ h
    intro b hb hlink hlevel
    simp only [recentSameKey, List.any_eq_true, Bool.and_eq_true, beq_iff_eq,
      decide_eq_true_eq, not_exists, not_and] at hnot
    have hle := hnot b hb ⟨hlink.symm, hlevel.symm⟩
    exact Nat.le_of_not_lt hle

theorem runEvaluator_cooldownOk (cooldown : ℕ)
    (ticks : List (String × String × ℕ)) (log : List AlertRec)
    (h : cooldownOk cooldown log) :
    cooldownOk cooldown (runEvaluator cooldown ticks log) := by
  induction ticks generalizing log with
  | nil => exact h
  | cons t ts ih =>
    exact ih _ (fireAlert_cooldownOk cooldown log t.1 t.2.1 t.2.2 h)

/-- C2: for any cooldown and any sequence of candidate alerts, the log built
by the evaluator from an empty log contains no two records of the same
(link, level) whose fired-at times are closer than the cooldown — the
evaluator suppresses a candidate whenever an alert of that (link, level)
exists within the window; and the configured default cooldown is 300 s. -/
theorem C2_theorem (cooldown : ℕ) (ticks : List (String × String × ℕ)) :
    cooldownOk cooldown (runEvaluator cooldown ticks []) ∧
    configAlertCooldown = 300 :=
  ⟨runEvaluator_cooldownOk cooldown ticks [] List.Pairwise.nil, rfl⟩

/-- Link state row as declared in src/frontend/utils/api.ts (LinkState). -/
structure LinkStateRow where
  reseller_id : String
  state : String
  since : ℕ
deriving DecidableEq, Repr

/-- HTTP response as seen by src/frontend/utils/api.ts: the ok flag, the
numeric status, and the JSON-parsed body. -/
structure HttpResponse (α : Type) where
  ok : Bool
  status : ℕ
  body : α
deriving DecidableEq, Repr

/-- From src/frontend/utils/api.ts ApiClient.request: throw an error naming
the status when the response is not ok, otherwise return the parsed body. -/
def apiRequest {α : Type} (resp : HttpResponse α) : Except String α :=
  if resp.ok then Except.ok resp.body
  else Except.error ("API error: " ++ toString resp.status)

/-- From src/frontend/utils/api.ts ApiClient.getResellers: delegates to
request (the variant with a try/catch logs and rethrows the same error). -/
def apiGetResellers (resp : HttpResponse (List Reseller)) :
    Except String (List Reseller) := apiRequest resp

/-- From src/frontend/utils/api.ts ApiClient.getResellerUsage: delegates to
request. -/
def apiGetResellerUsage (resp : HttpResponse (List UsagePoint)) :
    Except String (List UsagePoint) := apiRequest resp

/-- From src/frontend/utils/api.ts ApiClient.getLinkStates: delegates to
request. -/
def apiGetLinkStates (resp : HttpResponse (List LinkStateRow)) :
    Except String (List LinkStateRow) := apiRequest resp

/-- C9: a GET-style ApiClient call errors exactly when the response is not
ok, and on an ok response returns the parsed body unchanged — no fallback or
default is substituted; the delegating getters behave identically to request. -/
theorem C9_theorem {α : Type} (resp : HttpResponse α)
    (respR : HttpResponse (List Reseller)) (respU : HttpResponse (List UsagePoint))
    (respL : HttpResponse (List LinkStateRow)) :
    ((∃ e, apiRequest resp = Except.error e) ↔ resp.ok = false) ∧
    (resp.ok = true → apiRequest resp = Except.ok resp.body) ∧
    (resp.ok = false →
      apiRequest resp = Except.error ("API error: " ++ toString resp.status)) ∧
    apiGetResellers respR = apiRequest respR ∧
    apiGetResellerUsage respU = apiRequest respU ∧
    apiGetLinkStates respL = apiRequest respL := by
  refine ⟨?_, ?_, ?_, rfl, rfl, rfl⟩
  · constructor
    · rintro ⟨e, he⟩
      by_contra hok
      simp only [Bool.not_eq_false] at hok
      simp [apiRequest, hok] at he
    · intro hok
      exact ⟨"API error: " ++ toString resp.status, by simp [apiRequest, hok]⟩
  · intro hok
    simp [apiRequest, hok]
  · intro hok
    simp [apiRequest, hok]

/-- Witness for C9 at a concrete ok response and a concrete failed response. -/
theorem C9_witness :
    apiRequest (HttpResponse.mk true 200 ([] : List Reseller)) =
      Except.ok ([] : List Reseller) ∧
    apiRequest (HttpResponse.mk false 500 ([] : List Reseller)) =
      Except.error ("API error: " ++ toString 500) :=
  ⟨(C9_theorem (HttpResponse.mk true 200 ([] : List Reseller))
      (HttpResponse.mk true 200 []) (HttpResponse.mk true 200 [])
      (HttpResponse.mk true 200 [])).2.1 rfl,
   (C9_theorem (HttpResponse.mk false 500 ([] : List Reseller))
      (HttpResponse.mk true 200 []) (HttpResponse.mk true 200 [])
      (HttpResponse.mk true 200 [])).2.2.1 rfl⟩

/-- Link health states per §4.2 of the spec: UP, DOWN, IDLE. -/
inductive LinkSt
  | up
  | down
  | idle
deriving DecidableEq, Repr

/-- Result of one reachability probe. -/
inductive ProbeResult
  | success
  | failure
deriving DecidableEq, Repr

/-- Alerts the health monitor can emit: LINK_DOWN on a DOWN transition and a
WARNING-level recovered alert on a DOWN→UP transition. -/
inductive HealthAlert
  | linkDown
  | recovered
deriving DecidableEq, Repr

/-- Health monitor state: persisted link state plus the in-memory
consecutive-failure counter. -/
structure HealthState where
  st : LinkSt
  failures : ℕ
deriving DecidableEq, Repr

/-- Modelled from the spec: one probe step of the Link Health Monitor (§4.2),
whose source is not part of the source tree. Success resets the counter to 0
and, when the prior state was DOWN, transitions to UP emitting one recovered
alert. Failure increments the counter and, when it reaches 3 while the prior
state was UP or IDLE, transitions to DOWN emitting one LINK_DOWN alert;
failures below the threshold change no state. -/
def healthStep (s : HealthState) : ProbeResult → HealthState × List HealthAlert
  | .success =>
    if s.st = .down then (⟨.up, 0⟩, [.recovered])
    else ({ s with failures := 0 }, [])
  | .failure =>
    if s.failures + 1 = 3 ∧ (s.st = .up ∨ s.st = .idle) then
      (⟨.down, s.failures + 1⟩, [.linkDown])
    else ({ s with failures := s.failures + 1 }, [])

/-- Run a sequence of probe results, accumulating the emitted alerts. -/
def runProbes (s : HealthState) : List ProbeResult → HealthState × List HealthAlert
  | [] => (s, [])
  | r :: rs =>
    let stepped := healthStep s r
    let rest := runProbes stepped.1 rs
    (rest.1, stepped.2 ++ rest.2)

/-- C5: from an UP or IDLE state with a zero counter, two consecutive failures
followed by a success return to the starting state with the counter reset and
emit no alert (DOWN is never reached, as a DOWN transition always emits
LINK_DOWN); three consecutive failures end in DOWN with exactly one LINK_DOWN
alert; any success resets the counter to 0; a success observed in DOWN yields
UP with one recovered alert; and a step from a non-DOWN state lands in DOWN
exactly when the probe failed and the counter reaches 3 with the prior state
UP or IDLE. -/
theorem C5_theorem (s : HealthState) (st0 : LinkSt)
    (h : st0 = .up ∨ st0 = .idle) :
    runProbes ⟨st0, 0⟩ [.failure, .failure, .success] = (⟨st0, 0⟩, []) ∧
    runProbes ⟨st0, 0⟩ [.failure, .failure, .failure] = (⟨.down, 3⟩, [.linkDown]) ∧
    (∀ n : ℕ, healthStep ⟨.down, n⟩ .success = (⟨.up, 0⟩, [.recovered])) ∧
    (healthStep s .success).1.failures = 0 ∧
    (s.st ≠ .down →
      ((healthStep s .failure).1.st = .down ↔
        s.failures + 1 = 3 ∧ (s.st = .up ∨ s.st = .idle))) := by
  refine ⟨?_, ?_, ?_, ?_, ?_⟩
  · rcases h with h | h <;> subst h <;> rfl
  · rcases h with h | h <;> subst h <;> rfl
  · intro n
    simp [healthStep]
  · simp only [healthStep]
    split <;> rfl
  · intro hne
    simp only [healthStep]
    split
    · rename_i hcond
      exact ⟨fun _ => hcond, fun _ => rfl⟩
    · rename_i hcond
      exact ⟨fun habs => absurd habs hne, fun hc => absurd hc hcond⟩

/-- Witness for C5 at the concrete UP state with a zero counter. -/
theorem C5_witness :
    runProbes ⟨.up, 0⟩ [.failure, .failure, .success] = (⟨.up, 0⟩, []) ∧
    runProbes ⟨.up, 0⟩ [.failure, .failure, .failure] = (⟨.down, 3⟩, [.linkDown]) ∧
    (∀ n : ℕ, healthStep ⟨.down, n⟩ .success = (⟨.up, 0⟩, [.recovered])) ∧
    (healthStep ⟨.up, 0⟩ .success).1.failures = 0 ∧
    ((⟨.up, 0⟩ : HealthState).st ≠ .down →
      ((healthStep ⟨.up, 0⟩ .failure).1.st = .down ↔
        (⟨.up, 0⟩ : HealthState).failures + 1 = 3 ∧
          ((⟨.up, 0⟩ : HealthState).st = .up ∨ (⟨.up, 0⟩ : HealthState).st = .idle))) :=
  C5_theorem ⟨.up, 0⟩ .up (Or.inl rfl)

/-- Usage sample row as persisted in the store (nttn_usage-like shape):
link id, timestamp, rx and tx rates. -/
structure Sample where
  link : String
  ts : ℕ
  rx : ℚ
  tx : ℚ
deriving DecidableEq, Repr

/-- Whether the table already holds a row with the given natural key
(link id, timestamp). -/
def hasSampleKey (tbl : List Sample) (link : String) (ts : ℕ) : Bool :=
  tbl.any fun s => s.link == link && s.ts == ts

/-- Modelled from the spec: the store's append-only insert for UsageSample,
idempotent on the natural key (link id, timestamp) — a re-delivered sample for
the same tick must not create a duplicate row (§3, §6). The collector/store
write path is not part of the source tree; the schema in
src/db_migration_router_nttn.sql declares the row shape only. New rows are
kept newest first. -/
def insertSample (tbl : List Sample) (s : Sample) : List Sample :=
  if hasSampleKey tbl s.link s.ts then tbl else s :: tbl

/-- Modelled from the spec: one collection tick at time `t` writes one sample
per link reading (link id, rx, tx). -/
def collectTick (tbl : List Sample) (readings : List (String × ℚ × ℚ))
    (t : ℕ) : List Sample :=
  readings.foldl (fun acc r => insertSample acc ⟨r.1, t, r.2.1, r.2.2⟩) tbl

/-- Modelled from the spec: run the collector over a sequence of ticks,
each a time paired with that tick's per-link readings. -/
def runCollector (tbl : List Sample) :
    List (ℕ × List (String × ℚ × ℚ)) → List Sample
  | [] => tbl
  | tick :: ticks => runCollector (collectTick tbl tick.2 tick.1) ticks

/-- Per-link ordering invariant on the table (newest first): rows of the same
link have strictly decreasing timestamps in list order, i.e. strictly
increasing timestamps in chronological order. -/
def linkOrdered (tbl : List Sample) : Prop :=
  List.Pairwise (fun a b => a.link = b.link → b.ts < a.ts) tbl

theorem insertSample_bound (tbl : List Sample) (s : Sample) (t : ℕ)
    (hb : ∀ x ∈ tbl, x.ts ≤ t) (hs : s.ts ≤ t) :
    ∀ x ∈ insertSample tbl s, x.ts ≤ t := by
  unfold insertSample
  split
  · exact hb
  · intro x hx
    rcases List.mem_cons.mp hx with h | h
    · exact h ▸ hs
    · exact hb x h

theorem insertSample_ordered (tbl : List Sample) (s : Sample) (t : ℕ)
    (hord : linkOrdered tbl) (hb : ∀ x ∈ tbl, x.ts ≤ t) (hs : s.ts = t) :
    linkOrdered (insertSample tbl s) := by
  unfold insertSample
  split
  · exact hord
  · rename_i hkey
    refine List.Pairwise.cons ?_ hord
    intro b hbmem hlink
    simp only [hasSampleKey, List.any_eq_true, Bool.and_eq_true, beq_iff_eq,
      not_exists, not_and] at hkey
    have hne := hkey b hbmem hlink.symm
    have hle : b.ts ≤ t := hb b hbmem
    omega

theorem collectTick_ordered (tbl : List Sample)
    (readings : List (String × ℚ × ℚ)) (t : ℕ)
    (hord : linkOrdered tbl) (hb : ∀ x ∈ tbl, x.ts ≤ t) :
    linkOrdered (collectTick tbl readings t) ∧
    ∀ x ∈ collectTick tbl readings t, x.ts ≤ t := by
  induction readings generalizing tbl with
  | nil => exact ⟨hord, hb⟩
  | cons r rs ih =>
    have h1 := insertSample_ordered tbl ⟨r.1, t, r.2.1, r.2.2⟩ t hord hb rfl
    have h2 := insertSample_bound tbl ⟨r.1, t, r.2.1, r.2.2⟩ t hb (le_refl t)
    exact ih _ h1 h2

theorem runCollector_ordered (ticks : List (ℕ × List (String × ℚ × ℚ)))
    (tbl : List Sample) (t0 : ℕ)
    (hmono : List.Chain' (fun a b => a < b) (t0 :: ticks.map Prod.fst))
    (hord : linkOrdered tbl) (hb : ∀ x ∈ tbl, x.ts ≤ t0) :
    linkOrdered (runCollector tbl ticks) := by
  induction ticks generalizing tbl t0 with
  | nil => exact hord
  | cons tick ticks ih =>
    have hlt : t0 < tick.1 := by
      have := List.chain'_cons.mp hmono
      simpa using this.1
    have hb1 : ∀ x ∈ tbl, x.ts ≤ tick.1 := fun x hx =>
      le_trans (hb x hx) (le_of_lt hlt)
    have h := collectTick_ordered tbl tick.2 tick.1 hord hb1
    exact ih _ tick.1 (List.chain'_cons.mp hmono).2 h.1 h.2

theorem hasSampleKey_insert (tbl : List Sample) (s : Sample) (link : String)
    (ts : ℕ) (h : hasSampleKey tbl link ts = true) :
    hasSampleKey (insertSample tbl s) link ts = true := by
  unfold insertSample
  split
  · exact h
  · simp only [hasSampleKey, List.any_cons, Bool.or_eq_true]
    exact Or.inr h

theorem hasSampleKey_insert_self (tbl : List Sample) (s : Sample) :
    hasSampleKey (insertSample tbl s) s.link s.ts = true := by
  unfold insertSample
  split
  · assumption
  · simp [hasSampleKey]

theorem collectTick_haskey (tbl : List Sample)
    (readings : List (String × ℚ × ℚ)) (t : ℕ) :
    (∀ r ∈ readings, hasSampleKey (collectTick tbl readings t) r.1 t = true) ∧
    (∀ link ts, hasSampleKey tbl link ts = true →
      hasSampleKey (collectTick tbl readings t) link ts = true) := by
  induction readings generalizing tbl with
  | nil => exact ⟨fun r hr => absurd hr (List.not_mem_nil r), fun _ _ h => h⟩
  | cons r rs ih =>
    have step : collectTick tbl (r :: rs) t =
        collectTick (insertSample tbl ⟨r.1, t, r.2.1, r.2.2⟩) rs t := rfl
    constructor
    · intro q hq
      rcases List.mem_cons.mp hq with h | h
      · rw [step]
        subst h
        exact (ih _).2 q.1 t (hasSampleKey_insert_self tbl ⟨q.1, t, q.2.1, q.2.2⟩)
      · rw [step]
        exact (ih _).1 q h
    · intro link ts hkey
      rw [step]
      exact (ih _).2 link ts (hasSampleKey_insert tbl _ link ts hkey)

theorem collectTick_noop (tbl : List Sample)
    (readings : List (String × ℚ × ℚ)) (t : ℕ)
    (h : ∀ r ∈ readings, hasSampleKey tbl r.1 t = true) :
    collectTick tbl readings t = tbl := by
  induction readings with
  | nil => rfl
  | cons r rs ih =>
    have hhead : hasSampleKey tbl r.1 t = true := h r (List.mem_cons_self r rs)
    have step : collectTick tbl (r :: rs) t =
        collectTick (insertSample tbl ⟨r.1, t, r.2.1, r.2.2⟩) rs t := rfl
    rw [step]
    have : insertSample tbl ⟨r.1, t, r.2.1, r.2.2⟩ = tbl := by
      unfold insertSample
      rw [if_pos hhead]
    rw [this]
    exact ih fun q hq => h q (List.mem_cons_of_mem r hq)

/-- C6: with strictly increasing tick times, the table built by the collector
from empty has, for every link, strictly increasing timestamps (strictly
decreasing in its newest-first list order) and hence no duplicate
(link, timestamp) pair; and replaying the same collection tick a second time
leaves any table unchanged (the insert is idempotent on the natural key). -/
theorem C6_theorem (ticks : List (ℕ × List (String × ℚ × ℚ)))
    (tbl : List Sample) (readings : List (String × ℚ × ℚ)) (t t0 : ℕ)
    (hmono : List.Chain' (fun a b => a < b) (t0 :: ticks.map Prod.fst)) :
    linkOrdered (runCollector [] ticks) ∧
    List.Pairwise (fun a b => ¬(a.link = b.link ∧ a.ts = b.ts))
      (runCollector [] ticks) ∧
    collectTick (collectTick tbl readings t) readings t =
      collectTick tbl readings t := by
  have hord := runCollector_ordered ticks [] t0 hmono List.Pairwise.nil
    (fun x hx => absurd hx (List.not_mem_nil x))
  refine ⟨hord, ?_, ?_⟩
  · exact hord.imp fun h hk => absurd (h hk.1) (by omega)
  · exact collectTick_noop _ readings t fun r hr =>
      (collectTick_haskey tbl readings t).1 r hr

/-- Witness for C6 at two concrete ticks with times 100 and 400 and a
concrete replayed tick. -/
theorem C6_witness :
    linkOrdered (runCollector []
      [(100, [("l1", 1, 2), ("l2", 3, 4)]), (400, [("l1", 5, 6)])]) ∧
    List.Pairwise (fun a b => ¬(a.link = b.link ∧ a.ts = b.ts))
      (runCollector []
        [(100, [("l1", 1, 2), ("l2", 3, 4)]), (400, [("l1", 5, 6)])]) ∧
    collectTick (collectTick [] [("l1", 1, 2), ("l1", 1, 2)] 100)
        [("l1", 1, 2), ("l1", 1, 2)] 100 =
      collectTick [] [("l1", 1, 2), ("l1", 1, 2)] 100 :=
  C6_theorem [(100, [("l1", 1, 2), ("l2", 3, 4)]), (400, [("l1", 5, 6)])]
    [] [("l1", 1, 2), ("l1", 1, 2)] 100 0
    (by norm_num [List.chain'_cons, List.chain'_singleton])

/-- Policy mapping row as declared in src/db_migration_router_nttn.sql,
table reseller_router_mapping: reseller id, router id, target ip, queue name,
with UNIQUE(reseller_id, router_id) and reseller_id REFERENCES resellers(id)
ON DELETE CASCADE. -/
structure PolicyMapping where
  reseller_id : String
  router_id : String
  target_ip : String
  queue_name : Option String
deriving DecidableEq, Repr

/-- Audit row as declared in src/db_migration_router_nttn.sql, table
bandwidth_update_log: reseller id, new limit, success count, total count,
timestamp. -/
structure AuditRow where
  reseller_id : String
  new_limit_mbps : ℕ
  success_count : ℕ
  total_count : ℕ
  ts : ℕ
deriving DecidableEq, Repr

/-- From src/config.yaml bandwidth_manager.retry_interval: retry failed
updates after 1800 seconds. -/
def configRetryInterval : ℕ := 1800

/-- Modelled from the spec: one actuation batch of the Bandwidth Policy
Actuator (§4.5), whose source is not part of the source tree. For a tenant
capacity change, each mapped device target is attempted (`applyOk` gives the
per-target outcome); exactly one audit row summarizing success/total for the
batch is prepended to the log; when some target failed, a retry of exactly the
failed subset is scheduled after the configured retry interval. -/
def actuateBatch (applyOk : PolicyMapping → Bool) (rid : String) (limit : ℕ)
    (mappings : List PolicyMapping) (t : ℕ) (log : List AuditRow) :
    List AuditRow × Option (ℕ × List PolicyMapping) :=
  let succ := (mappings.filter applyOk).length
  let fails := mappings.filter fun m => !(applyOk m)
  (⟨rid, limit, succ, mappings.length, t⟩ :: log,
   if succ < mappings.length then some (t + configRetryInterval, fails) else none)

/-- C7: an actuation batch writes exactly one audit row (the log grows by one
row whose counts summarize the batch), with success_count ≤ total_count; a
retry is scheduled exactly when success_count < total_count, it is scheduled
at the batch time plus the configured retry interval (default 1800 s), and its
work list is exactly the failed subset of the mappings. -/
theorem C7_theorem (applyOk : PolicyMapping → Bool) (rid : String) (limit : ℕ)
    (mappings : List PolicyMapping) (t : ℕ) (log : List AuditRow) :
    (actuateBatch applyOk rid limit mappings t log).1 =
      ⟨rid, limit, (mappings.filter applyOk).length, mappings.length, t⟩ :: log ∧
    (actuateBatch applyOk rid limit mappings t log).1.length = log.length + 1 ∧
    (mappings.filter applyOk).length ≤ mappings.length ∧
    ((actuateBatch applyOk rid limit mappings t log).2 =
        some (t + configRetryInterval, mappings.filter fun m => !(applyOk m)) ↔
      (mappings.filter applyOk).length < mappings.length) ∧
    configRetryInterval = 1800 := by
  refine ⟨rfl, rfl, List.length_filter_le _ _, ?_, rfl⟩
  simp only [actuateBatch]
  split
  · rename_i hlt
    exact ⟨fun _ => hlt, fun _ => rfl⟩
  · rename_i hge
    exact ⟨fun h => absurd h (by simp), fun h => absurd h hge⟩

/-- Key-uniqueness invariant of the reseller_router_mapping table:
no two rows share the (reseller_id, router_id) pair. -/
def mappingKeysUnique (tbl : List PolicyMapping) : Prop :=
  List.Pairwise
    (fun a b => ¬(a.reseller_id = b.reseller_id ∧ a.router_id = b.router_id)) tbl

/-- From src/db_migration_router_nttn.sql: INSERT ... ON CONFLICT
(reseller_id, router_id) DO UPDATE SET target_ip, queue_name — when a row with
the same key exists it is updated in place, otherwise the row is added. -/
def upsertMapping (tbl : List PolicyMapping) (row : PolicyMapping) :
    List PolicyMapping :=
  if tbl.any (fun r => r.reseller_id == row.reseller_id &&
      r.router_id == row.router_id) then
    tbl.map fun r =>
      if r.reseller_id == row.reseller_id && r.router_id == row.router_id then
        { r with target_ip := row.target_ip, queue_name := row.queue_name }
      else r
  else row :: tbl

/-- From src/db_migration_router_nttn.sql: reseller_id REFERENCES
resellers(id) ON DELETE CASCADE — deleting a reseller removes every mapping
row of that reseller and nothing else. -/
def deleteResellerCascade (tbl : List PolicyMapping) (rid : String) :
    List PolicyMapping :=
  tbl.filter fun r => !(r.reseller_id == rid)

/-- C8: upserting a mapping preserves the (reseller, router) key uniqueness
guaranteed by the UNIQUE constraint, and the ON DELETE CASCADE removes
exactly the deleted reseller's mapping rows: after the delete no row of that
reseller remains, every other row survives, and uniqueness is preserved. -/
theorem C8_theorem (tbl : List PolicyMapping) (row : PolicyMapping)
    (rid : String) (h : mappingKeysUnique tbl) :
    mappingKeysUnique (upsertMapping tbl row) ∧
    (∀ r ∈ deleteResellerCascade tbl rid, r.reseller_id ≠ rid) ∧
    (∀ r ∈ tbl, r.reseller_id ≠ rid → r ∈ deleteResellerCascade tbl rid) ∧
    mappingKeysUnique (deleteResellerCascade tbl rid) := by
  refine ⟨?_, ?_, ?_, ?_⟩
  · unfold upsertMapping
    split
    · rename_i hexists
      refine List.Pairwise.map _ ?_ h
      intro a b hab
      intro hkey
      apply hab
      constructor
      · have ha := hkey.1
        have hb := hkey.2
        revert ha hb
        split <;> split <;> simp_all
      · have ha := hkey.1
        have hb := hkey.2
        revert ha hb
        split <;> split <;> simp_all
    · rename_i hnone
      refine List.Pairwise.cons ?_ h
      intro b hb hkey
      simp only [List.any_eq_true, Bool.and_eq_true, beq_iff_eq, not_exists,
        not_and] at hnone
      exact hnone b hb hkey.1.symm hkey.2.symm
  · intro r hr
    have := List.of_mem_filter hr
    simpa using this
  · intro r hr hne
    refine List.mem_filter.mpr ⟨hr, ?_⟩
    simpa using hne
  · exact List.Pairwise.filter _ h

/-- Witness for C8 at a concrete two-row table. -/
theorem C8_witness :
    mappingKeysUnique (upsertMapping
      [⟨"r1", "d1", "10.0.0.1", none⟩, ⟨"r2", "d1", "10.0.0.2", none⟩]
      ⟨"r1", "d1", "10.0.0.9", some "q1"⟩) ∧
    (∀ r ∈ deleteResellerCascade
        [⟨"r1", "d1", "10.0.0.1", none⟩, ⟨"r2", "d1", "10.0.0.2", none⟩] "r1",
      r.reseller_id ≠ "r1") ∧
    (∀ r ∈ ([⟨"r1", "d1", "10.0.0.1", none⟩, ⟨"r2", "d1", "10.0.0.2", none⟩] :
        List PolicyMapping), r.reseller_id ≠ "r1" →
      r ∈ deleteResellerCascade
        [⟨"r1", "d1", "10.0.0.1", none⟩, ⟨"r2", "d1", "10.0.0.2", none⟩] "r1") ∧
    mappingKeysUnique (deleteResellerCascade
      [⟨"r1", "d1", "10.0.0.1", none⟩, ⟨"r2", "d1", "10.0.0.2", none⟩] "r1") :=
  C8_theorem [⟨"r1", "d1", "10.0.0.1", none⟩, ⟨"r2", "d1", "10.0.0.2", none⟩]
    ⟨"r1", "d1", "10.0.0.9", some "q1"⟩ "r1"
    (by simp [mappingKeysUnique])

/-- Leaderboard entry as built in
src/frontend/components/ResellerLeaderboard.tsx. -/
structure LBEntry where
  reseller : Reseller
  currentUsage : ℚ
  utilization : ℚ
  rank : ℕ
deriving DecidableEq, Repr

/-- From src/frontend/components/ResellerLeaderboard.tsx loadLeaderboard: the
per-reseller entry takes rx+tx of the last usage point, 0 when the series is
empty or the fetch failed (the catch branch, modelled by `none`); the rank is
assigned later, after sorting. -/
def mkEntry (pr : Reseller × Option (List UsagePoint)) : LBEntry :=
  { reseller := pr.1,
    currentUsage := currentUsageOf pr.2,
    utilization := currentUsageOf pr.2 / pr.1.plan_mbps * 100,
    rank := 0 }

/-- Insertion step of the sort by current usage, descending; an element is
placed after all existing elements with usage at least its own, keeping the
sort stable like the JS comparator (a, b) => b.currentUsage - a.currentUsage. -/
def insertByUsage (e : LBEntry) : List LBEntry → List LBEntry
  | [] => [e]
  | x :: xs =>
    if e.currentUsage ≤ x.currentUsage then x :: insertByUsage e xs
    else e :: x :: xs

/-- Sort by current usage, descending, as applied to the leaderboard data. -/
def sortByUsage : List LBEntry → List LBEntry
  | [] => []
  | x :: xs => insertByUsage x (sortByUsage xs)

/-- From ResellerLeaderboard.tsx: ranks are assigned as index + 1 after
sorting. -/
def assignRanksFrom : ℕ → List LBEntry → List LBEntry
  | _, [] => []
  | n, e :: es => { e with rank := n } :: assignRanksFrom (n + 1) es

/-- The leaderboard pipeline of ResellerLeaderboard.tsx: build one entry per
reseller from its own fetched usage, sort by current usage descending, and
assign ranks 1, 2, ... in order. -/
def leaderboardOf (pairs : List (Reseller × Option (List UsagePoint))) :
    List LBEntry :=
  assignRanksFrom 1 (sortByUsage (pairs.map mkEntry))

theorem insertByUsage_perm (e : LBEntry) (l : List LBEntry) :
    (insertByUsage e l).Perm (e :: l) := by
  induction l with
  | nil => exact List.Perm.refl _
  | cons x xs ih =>
    unfold insertByUsage
    split
    · exact ((ih.cons x).trans (List.Perm.swap e x xs))
    · exact List.Perm.refl _

theorem insertByUsage_sorted (e : LBEntry) (l : List LBEntry)
    (h : List.Pairwise (fun a b => b.currentUsage ≤ a.currentUsage) l) :
    List.Pairwise (fun a b => b.currentUsage ≤ a.currentUsage)
      (insertByUsage e l) := by
  induction l with
  | nil => exact List.pairwise_singleton _ e
  | cons x xs ih =>
    unfold insertByUsage
    split
    · rename_i hle
      refine List.Pairwise.cons ?_ (ih (List.Pairwise.of_cons h))
      intro y hy
      have hy2 := (insertByUsage_perm e xs).mem_iff.mp hy
      rcases List.mem_cons.mp hy2 with h1 | h1
      · exact h1 ▸ hle
      · exact (List.pairwise_cons.mp h).1 y h1
    · rename_i hgt
      push_neg at hgt
      refine List.Pairwise.cons ?_ h
      intro y hy
      rcases List.mem_cons.mp hy with h1 | h1
      · exact h1 ▸ le_of_lt hgt
      · exact le_trans ((List.pairwise_cons.mp h).1 y h1) (le_of_lt hgt)

theorem sortByUsage_perm (l : List LBEntry) : (sortByUsage l).Perm l := by
  induction l with
  | nil => exact List.Perm.refl _
  | cons x xs ih =>
    exact (insertByUsage_perm x (sortByUsage xs)).trans (ih.cons x)

theorem sortByUsage_sorted (l : List LBEntry) :
    List.Pairwise (fun a b => b.currentUsage ≤ a.currentUsage)
      (sortByUsage l) := by
  induction l with
  | nil => exact List.Pairwise.nil
  | cons x xs ih => exact insertByUsage_sorted x (sortByUsage xs) ih

theorem assignRanksFrom_ranks (n : ℕ) (l : List LBEntry) :
    (assignRanksFrom n l).map (fun e => e.rank) = List.range' n l.length := by
  induction l generalizing n with
  | nil => rfl
  | cons x xs ih =>
    simp only [assignRanksFrom, List.map_cons, List.length_cons,
      List.range'_succ, ih]

theorem assignRanksFrom_usage (n : ℕ) (l : List LBEntry) :
    (assignRanksFrom n l).map (fun e => e.currentUsage) =
      l.map fun e => e.currentUsage := by
  induction l generalizing n with
  | nil => rfl
  | cons x xs ih =>
    simp only [assignRanksFrom, List.map_cons, ih]

theorem assignRanksFrom_reseller (n : ℕ) (l : List LBEntry) :
    (assignRanksFrom n l).map (fun e => e.reseller) =
      l.map fun e => e.reseller := by
  induction l generalizing n with
  | nil => rfl
  | cons x xs ih =>
    simp only [assignRanksFrom, List.map_cons, ih]

theorem assignRanksFrom_mem (n : ℕ) (l : List LBEntry) (x : LBEntry)
    (hx : x ∈ l) :
    ∃ e ∈ assignRanksFrom n l, e.reseller = x.reseller ∧
      e.currentUsage = x.currentUsage := by
  induction l generalizing n with
  | nil => exact absurd hx (List.not_mem_nil x)
  | cons y ys ih =>
    rcases List.mem_cons.mp hx with h | h
    · subst h
      exact ⟨{ x with rank := n }, List.mem_cons_self _ _, rfl, rfl⟩
    · obtain ⟨e, he, hr, hu⟩ := ih (n + 1) h
      exact ⟨e, List.mem_cons_of_mem _ he, hr, hu⟩

/-- C10: the leaderboard is sorted in non-increasing order of current usage
(rx + tx of the most recent sample, 0 when absent or when the per-reseller
fetch failed); ranks are exactly 1..n in list order; the displayed resellers
are a permutation of the input resellers (no reseller is removed); and every
reseller appears with the usage computed from its own fetch alone — in
particular a reseller whose fetch failed appears with usage 0. -/
theorem C10_theorem (pairs : List (Reseller × Option (List UsagePoint))) :
    List.Pairwise (fun a b => b.currentUsage ≤ a.currentUsage)
      (leaderboardOf pairs) ∧
    (leaderboardOf pairs).map (fun e => e.rank) =
      List.range' 1 pairs.length ∧
    ((leaderboardOf pairs).map (fun e => e.reseller)).Perm
      (pairs.map Prod.fst) ∧
    (∀ pr ∈ pairs, ∃ e ∈ leaderboardOf pairs,
      e.reseller = pr.1 ∧ e.currentUsage = currentUsageOf pr.2) ∧
    (∀ pr ∈ pairs, pr.2 = none → ∃ e ∈ leaderboardOf pairs,
      e.reseller = pr.1 ∧ e.currentUsage = 0) := by
  have hsorted := sortByUsage_sorted (pairs.map mkEntry)
  have hperm := sortByUsage_perm (pairs.map mkEntry)
  refine ⟨?_, ?_, ?_, ?_, ?_⟩
  · have h1 : List.Pairwise (fun x y : ℚ => y ≤ x)
        ((sortByUsage (pairs.map mkEntry)).map fun e => e.currentUsage) :=
      (List.pairwise_map).mpr hsorted
    have h2 := (assignRanksFrom_usage 1 (sortByUsage (pairs.map mkEntry))).symm
    rw [h2] at h1
    exact (List.pairwise_map).mp h1
  · rw [leaderboardOf, assignRanksFrom_ranks]
    have : (sortByUsage (pairs.map mkEntry)).length = pairs.length := by
      rw [hperm.length_eq, List.length_map]
    rw [this]
  · rw [leaderboardOf, assignRanksFrom_reseller]
    have h1 := hperm.map fun e => e.reseller
    have h2 : (pairs.map mkEntry).map (fun e => e.reseller) =
        pairs.map Prod.fst := by
      rw [List.map_map]
      rfl
    rw [h2] at h1
    exact h1
  · intro pr hpr
    have hmem : mkEntry pr ∈ pairs.map mkEntry := List.mem_map_of_mem _ hpr
    have hmem2 : mkEntry pr ∈ sortByUsage (pairs.map mkEntry) :=
      hperm.mem_iff.mpr hmem
    exact assignRanksFrom_mem 1 _ (mkEntry pr) hmem2
  · intro pr hpr hnone
    obtain ⟨e, he, hr, hu⟩ :
        ∃ e ∈ leaderboardOf pairs,
          e.reseller = pr.1 ∧ e.currentUsage = currentUsageOf pr.2 := by
      have hmem : mkEntry pr ∈ pairs.map mkEntry := List.mem_map_of_mem _ hpr
      have hmem2 : mkEntry pr ∈ sortByUsage (pairs.map mkEntry) :=
        hperm.mem_iff.mpr hmem
      exact assignRanksFrom_mem 1 _ (mkEntry pr) hmem2
    exact ⟨e, he, hr, by rw [hu, hnone]; rfl⟩

/-- Witness for C10 at a concrete input: two resellers, the second one's
usage fetch failed. -/
theorem C10_witness :
    ∃ e ∈ leaderboardOf
      [(⟨"r1", "A", 100, 8 / 10⟩, some [⟨0, 3, 4⟩]), (⟨"r2", "B", 50, 8 / 10⟩, none)],
      e.reseller = ⟨"r2", "B", 50, 8 / 10⟩ ∧ e.currentUsage = 0 :=
  (C10_theorem
    [(⟨"r1", "A", 100, 8 / 10⟩, some [⟨0, 3, 4⟩]), (⟨"r2", "B", 50, 8 / 10⟩, none)]).2.2.2.2
    (⟨"r2", "B", 50, 8 / 10⟩, none)
    (List.mem_cons_of_mem _ (List.mem_singleton_self _)) rfl

/-- Witness for C3 at concrete values: summed usage 750, the five-circuit
reseller list, and configured capacity 2000. -/
theorem C3_witness :
    nttnUsageUtilizationPercent 750 = specAggUtilizationPercent 750 1000 ∧
    chartUtilizationPercent 750 fiveSubCircuits =
      specAggUtilizationPercent 750 (chartTotalCapacity fiveSubCircuits) ∧
    nttnUsageUtilizationPercent 1000 ≠ specAggUtilizationPercent 1000 2000 :=
  ⟨(C3_theorem 750 fiveSubCircuits 2000).1,
   (C3_theorem 750 fiveSubCircuits 2000).2.1,
   (C3_theorem 750 fiveSubCircuits 2000).2.2 (by norm_num) (by norm_num)⟩
